import Mathlib

/-!
Verification development for the devp2p crawler (`cmd/devp2p/crawl.go`).

The crawler maintains a node set mapping node identities to liveness
metadata, updated by `updateNode` as candidates arrive from discovery
iterators, and orchestrated by `run` which fans iterator workers into a
single consumer loop with a timeout.

Timestamps are modelled as natural numbers of nanoseconds since the zero
time; the Go zero `time.Time` (for which `IsZero` holds) is modelled by
`0`.  Durations are modelled as integers of nanoseconds.  `Score` is a
signed integer; Go's `/` on integers truncates toward zero, which is
`Int.tdiv`.
-/

/-- Abstraction of `enode.Node`: a stable identity plus the record
sequence number returned by `Seq()`. -/
structure ENode where
  id : Nat
  seq : Nat
deriving DecidableEq

/-- Modelled from the spec: the per-identity liveness record (`nodeJSON`
in the missing `nodeset.go`; its fields are exactly those `crawl.go`
reads and writes): the most recent extended record `N`, its sequence
number `Seq`, the signed liveness counter `Score`, and the three
one-second-resolution timestamps.  A timestamp value `0` models the Go
zero time (`IsZero`). -/
structure NodeJSON where
  n : Option ENode
  seq : Nat
  score : Int
  firstResponse : Nat
  lastResponse : Nat
  lastCheck : Nat
deriving DecidableEq

/-- The zero value of `nodeJSON`, produced by a failed Go map lookup. -/
def zeroNodeJSON : NodeJSON :=
  { n := none, seq := 0, score := 0, firstResponse := 0, lastResponse := 0, lastCheck := 0 }

/-- Modelled from the spec: `nodeSet` is a mapping from node ID to
`nodeJSON` (a Go map, here an association list with unique keys kept by
the operations below). -/
abbrev NodeSet : Type := List (Nat × NodeJSON)

/-- Go map lookup `s[id]` (the `value, ok` form: `none` models `ok = false`). -/
def nsFind : NodeSet → Nat → Option NodeJSON
  | [], _ => none
  | (k, v) :: rest, id => if k = id then some v else nsFind rest id

/-- Go map `delete(s, id)`. -/
def nsErase : NodeSet → Nat → NodeSet
  | [], _ => []
  | (k, v) :: rest, id => if k = id then nsErase rest id else (k, v) :: nsErase rest id

/-- Go map store `s[id] = v` (insert or replace). -/
def nsInsert (s : NodeSet) (id : Nat) (v : NodeJSON) : NodeSet :=
  (id, v) :: nsErase s id

/-- The closed set of classification codes returned by `updateNode`
(`nodeRemoved`, `nodeSkipRecent`, `nodeSkipIncompat`, `nodeAdded`,
`nodeUpdated` in `crawl.go`). -/
inductive UpdateStatus where
  | nodeRemoved
  | nodeSkipRecent
  | nodeSkipIncompat
  | nodeAdded
  | nodeUpdated
deriving DecidableEq

/-- `truncNow`: the current time truncated to one-second resolution
(`time.Now().UTC().Truncate(1 * time.Second)`), with `now` in
nanoseconds. -/
def truncNow (now : Nat) : Nat :=
  now / 1000000000 * 1000000000

/-- `crawler.updateNode` from `crawl.go`.  `revalidateInterval` is the
crawler setting, `resolve` models `c.disc.RequestENR` (`none` models a
non-nil error), `output` is `c.output`, `n` the candidate and `now` the
current wall-clock time in nanoseconds (`time.Since(node.LastCheck)` is
`now - node.LastCheck`).  Returns the classification together with the
new `c.output`. -/
def updateNode (revalidateInterval : Int) (resolve : ENode → Option ENode)
    (output : NodeSet) (n : ENode) (now : Nat) : UpdateStatus × NodeSet :=
  let found := nsFind output n.id
  let node := found.getD zeroNodeJSON
  -- Skip validation of recently-seen nodes.
  if found.isSome ∧ (now : Int) - (node.lastCheck : Int) < revalidateInterval then
    (.nodeSkipRecent, output)
  else
    -- Request the node record.
    match resolve n with
    | none =>
      let node : NodeJSON := { node with lastCheck := truncNow now }
      if node.score = 0 then
        -- Node doesn't implement EIP-868.
        (.nodeSkipIncompat, output)
      else
        let node : NodeJSON := { node with score := Int.tdiv node.score 2 }
        if node.score ≤ 0 then
          (.nodeRemoved, nsErase output n.id)
        else
          (.nodeUpdated, nsInsert output n.id node)
    | some nn =>
      let node : NodeJSON := { node with lastCheck := truncNow now }
      let node : NodeJSON := { node with n := some nn, seq := nn.seq, score := node.score + 1 }
      let sn : UpdateStatus × NodeJSON :=
        if node.firstResponse = 0 then
          (.nodeAdded, { node with firstResponse := node.lastCheck })
        else
          (.nodeUpdated, node)
      let node : NodeJSON := { sn.2 with lastResponse := sn.2.lastCheck }
      if node.score ≤ 0 then
        (.nodeRemoved, nsErase output n.id)
      else
        (sn.1, nsInsert output n.id node)

/-- `newCrawler`'s initialisation of `c.output`: a value copy of the
input set (`for id, n := range input { c.output[id] = n }`). -/
def newCrawlerOutput (input : NodeSet) : NodeSet := input

/-- A single consumer-loop delivery: the candidate node, the resolver's
answer for this probe, and the wall-clock time of the probe. -/
structure Call where
  n : ENode
  resolve : ENode → Option ENode
  now : Nat

/-- Apply a sequence of `updateNode` calls, threading `output`. -/
def applyCalls (revalidateInterval : Int) (output : NodeSet) : List Call → NodeSet
  | [] => output
  | c :: rest =>
      applyCalls revalidateInterval
        (updateNode revalidateInterval c.resolve output c.n c.now).2 rest

/-- The output-set invariant claimed by the spec: every record present
has a strictly positive score. -/
def ScoreInvariant (s : NodeSet) : Prop :=
  ∀ p ∈ s, 0 < p.2.score

instance (s : NodeSet) : Decidable (ScoreInvariant s) := by
  unfold ScoreInvariant
  exact List.decidableBAll _ s

/-- The guard of `updateNode` fails, so the call reaches the resolver:
the candidate is not a recently-checked present record. -/
def ReachesResolver (revalidateInterval : Int) (output : NodeSet) (n : ENode)
    (now : Nat) : Prop :=
  ¬((nsFind output n.id).isSome ∧
    (now : Int) - (((nsFind output n.id).getD zeroNodeJSON).lastCheck : Int) <
      revalidateInterval)

instance (revalidateInterval : Int) (output : NodeSet) (n : ENode) (now : Nat) :
    Decidable (ReachesResolver revalidateInterval output n now) := by
  unfold ReachesResolver
  infer_instance

theorem nsFind_eq_some_mem {s : NodeSet} {id : Nat} {v : NodeJSON}
    (h : nsFind s id = some v) : (id, v) ∈ s := by
  induction s with
  | nil => simp [nsFind] at h
  | cons p rest ih =>
      obtain ⟨k, w⟩ := p
      by_cases hk : k = id
      · subst hk
        simp [nsFind] at h
        simp [h]
      · simp [nsFind, hk] at h
        exact List.mem_cons_of_mem _ (ih h)

theorem mem_nsErase {s : NodeSet} {id : Nat} {p : Nat × NodeJSON}
    (h : p ∈ nsErase s id) : p ∈ s := by
  induction s with
  | nil => simp [nsErase] at h
  | cons q rest ih =>
      obtain ⟨k, w⟩ := q
      by_cases hk : k = id
      · subst hk
        simp [nsErase] at h
        exact List.mem_cons_of_mem _ (ih h)
      · simp [nsErase, hk] at h
        rcases h with h | h
        · simp [h]
        · exact List.mem_cons_of_mem _ (ih h)

theorem nsFind_nsErase_self (s : NodeSet) (id : Nat) :
    nsFind (nsErase s id) id = none := by
  induction s with
  | nil => simp [nsErase, nsFind]
  | cons q rest ih =>
      obtain ⟨k, w⟩ := q
      by_cases hk : k = id
      · subst hk
        simpa [nsErase] using ih
      · simpa [nsErase, nsFind, hk] using ih

theorem nsFind_nsInsert_self (s : NodeSet) (id : Nat) (v : NodeJSON) :
    nsFind (nsInsert s id v) id = some v := by
  simp [nsInsert, nsFind]

theorem mem_nsInsert {s : NodeSet} {id : Nat} {v : NodeJSON} {p : Nat × NodeJSON}
    (h : p ∈ nsInsert s id v) : p = (id, v) ∨ p ∈ s := by
  simp only [nsInsert, List.mem_cons] at h
  rcases h with h | h
  · exact Or.inl h
  · exact Or.inr (mem_nsErase h)

theorem updateNode_of_recent (revalidateInterval : Int) (resolve : ENode → Option ENode)
    (output : NodeSet) (n : ENode) (now : Nat) (r : NodeJSON)
    (hfind : nsFind output n.id = some r)
    (hlt : (now : Int) - (r.lastCheck : Int) < revalidateInterval) :
    updateNode revalidateInterval resolve output n now = (.nodeSkipRecent, output) := by
  simp [updateNode, hfind, hlt]

theorem updateNode_fail_score_zero (revalidateInterval : Int)
    (resolve : ENode → Option ENode) (output : NodeSet) (n : ENode) (now : Nat)
    (hguard : ReachesResolver revalidateInterval output n now)
    (hres : resolve n = none)
    (hscore : ((nsFind output n.id).getD zeroNodeJSON).score = 0) :
    updateNode revalidateInterval resolve output n now = (.nodeSkipIncompat, output) := by
  unfold ReachesResolver at hguard
  simp only [updateNode, hres]
  rw [if_neg hguard]
  simp [hscore]

theorem updateNode_fail_score_nonzero (revalidateInterval : Int)
    (resolve : ENode → Option ENode) (output : NodeSet) (n : ENode) (now : Nat)
    (r : NodeJSON)
    (hfind : nsFind output n.id = some r)
    (hguard : ReachesResolver revalidateInterval output n now)
    (hres : resolve n = none)
    (hscore : r.score ≠ 0) :
    updateNode revalidateInterval resolve output n now =
      if Int.tdiv r.score 2 ≤ 0 then
        (.nodeRemoved, nsErase output n.id)
      else
        (.nodeUpdated, nsInsert output n.id
          { r with score := Int.tdiv r.score 2, lastCheck := truncNow now }) := by
  unfold ReachesResolver at hguard
  simp only [updateNode, hres, hfind]
  rw [if_neg (by simpa [hfind] using hguard)]
  simp [hscore]

theorem updateNode_success (revalidateInterval : Int)
    (resolve : ENode → Option ENode) (output : NodeSet) (n : ENode) (now : Nat)
    (nn : ENode)
    (hguard : ReachesResolver revalidateInterval output n now)
    (hres : resolve n = some nn)
    (hnonneg : 0 ≤ ((nsFind output n.id).getD zeroNodeJSON).score) :
    updateNode revalidateInterval resolve output n now =
      (let r := (nsFind output n.id).getD zeroNodeJSON
       if r.firstResponse = 0 then
        (.nodeAdded, nsInsert output n.id
          { r with n := some nn, seq := nn.seq, score := r.score + 1,
                   firstResponse := truncNow now, lastResponse := truncNow now,
                   lastCheck := truncNow now })
       else
        (.nodeUpdated, nsInsert output n.id
          { r with n := some nn, seq := nn.seq, score := r.score + 1,
                   lastResponse := truncNow now, lastCheck := truncNow now })) := by
  unfold ReachesResolver at hguard
  have hpos : ¬(((nsFind output n.id).getD zeroNodeJSON).score + 1 ≤ 0) := by omega
  simp only [updateNode, hres]
  rw [if_neg hguard]
  by_cases hfr : ((nsFind output n.id).getD zeroNodeJSON).firstResponse = 0 <;>
    simp [hfr, hpos]

/-- C2: a candidate whose identity has a record in `output` with
`now - LastCheck < revalidateInterval` is classified `SkippedRecent`;
the result does not depend on the resolver (it is never called) and the
output set — hence every field of the record — is returned unchanged. -/
theorem c2_skip_recent_no_mutation (revalidateInterval : Int) (output : NodeSet)
    (n : ENode) (now : Nat) (r : NodeJSON)
    (hfind : nsFind output n.id = some r)
    (hlt : (now : Int) - (r.lastCheck : Int) < revalidateInterval) :
    ∀ resolve : ENode → Option ENode,
      updateNode revalidateInterval resolve output n now = (.nodeSkipRecent, output) :=
  fun resolve => updateNode_of_recent revalidateInterval resolve output n now r hfind hlt

theorem c2_skip_recent_no_mutation_witness :
    nsFind [(5, { zeroNodeJSON with score := 3, lastCheck := 1000000000 })] 5 =
        some { zeroNodeJSON with score := 3, lastCheck := 1000000000 } ∧
      ∀ resolve : ENode → Option ENode,
        updateNode 2000000000 resolve
            [(5, { zeroNodeJSON with score := 3, lastCheck := 1000000000 })] ⟨5, 0⟩
            1500000000 =
          (.nodeSkipRecent, [(5, { zeroNodeJSON with score := 3, lastCheck := 1000000000 })]) :=
  ⟨by decide,
   c2_skip_recent_no_mutation 2000000000
     [(5, { zeroNodeJSON with score := 3, lastCheck := 1000000000 })] ⟨5, 0⟩
     1500000000 { zeroNodeJSON with score := 3, lastCheck := 1000000000 }
     (by decide) (by decide)⟩

/-- C3: a brand-new identity (no record in `output`) whose first
resolution succeeds is classified `Added`, and the stored record has
`FirstResponse = LastResponse = LastCheck = truncNow now`, `Score = 1`,
and `N`, `Seq` from the resolved record. -/
theorem c3_first_success_added (revalidateInterval : Int)
    (resolve : ENode → Option ENode) (output : NodeSet) (n : ENode) (now : Nat)
    (nn : ENode)
    (habsent : nsFind output n.id = none)
    (hres : resolve n = some nn) :
    updateNode revalidateInterval resolve output n now =
      (.nodeAdded, nsInsert output n.id
        { n := some nn, seq := nn.seq, score := 1,
          firstResponse := truncNow now, lastResponse := truncNow now,
          lastCheck := truncNow now }) := by
  have hguard : ReachesResolver revalidateInterval output n now := by
    unfold ReachesResolver
    simp [habsent]
  have h := updateNode_success revalidateInterval resolve output n now nn hguard hres
    (by simp [habsent, zeroNodeJSON])
  rw [h]
  simp [habsent, zeroNodeJSON]

theorem c3_first_success_added_witness :
    nsFind ([] : NodeSet) 7 = none ∧
      updateNode 1000000000 (fun _ => some ⟨7, 5⟩) [] ⟨7, 0⟩ 3400000000 =
        (.nodeAdded,
          [(7, { n := some ⟨7, 5⟩, seq := 5, score := 1,
                 firstResponse := 3000000000, lastResponse := 3000000000,
                 lastCheck := 3000000000 })]) :=
  ⟨by decide,
   by
    have h := c3_first_success_added 1000000000 (fun _ => some ⟨7, 5⟩) [] ⟨7, 0⟩
      3400000000 ⟨7, 5⟩ (by decide) (by decide)
    simpa [nsInsert, nsErase, truncNow] using h⟩

theorem updateNode_success_cases (revalidateInterval : Int)
    (resolve : ENode → Option ENode) (output : NodeSet) (n : ENode) (now : Nat)
    (nn : ENode)
    (hguard : ReachesResolver revalidateInterval output n now)
    (hres : resolve n = some nn) :
    (((nsFind output n.id).getD zeroNodeJSON).score + 1 ≤ 0 ∧
        updateNode revalidateInterval resolve output n now =
          (.nodeRemoved, nsErase output n.id)) ∨
      (0 < ((nsFind output n.id).getD zeroNodeJSON).score + 1 ∧
        ∃ v : NodeJSON, v.score = ((nsFind output n.id).getD zeroNodeJSON).score + 1 ∧
          v.lastCheck = truncNow now ∧
          updateNode revalidateInterval resolve output n now =
            ((if ((nsFind output n.id).getD zeroNodeJSON).firstResponse = 0 then
                UpdateStatus.nodeAdded
              else UpdateStatus.nodeUpdated),
             nsInsert output n.id v)) := by
  unfold ReachesResolver at hguard
  by_cases hsle : ((nsFind output n.id).getD zeroNodeJSON).score + 1 ≤ 0
  · left
    refine ⟨hsle, ?_⟩
    simp only [updateNode, hres]
    rw [if_neg hguard]
    by_cases hfr : ((nsFind output n.id).getD zeroNodeJSON).firstResponse = 0 <;>
      simp [hfr, hsle]
  · right
    refine ⟨by omega, ?_⟩
    by_cases hfr : ((nsFind output n.id).getD zeroNodeJSON).firstResponse = 0
    · refine ⟨{ (nsFind output n.id).getD zeroNodeJSON with
          n := some nn, seq := nn.seq,
          score := ((nsFind output n.id).getD zeroNodeJSON).score + 1,
          firstResponse := truncNow now, lastResponse := truncNow now,
          lastCheck := truncNow now }, rfl, rfl, ?_⟩
      simp only [updateNode, hres]
      rw [if_neg hguard]
      simp [hfr, hsle]
    · refine ⟨{ (nsFind output n.id).getD zeroNodeJSON with
          n := some nn, seq := nn.seq,
          score := ((nsFind output n.id).getD zeroNodeJSON).score + 1,
          lastResponse := truncNow now, lastCheck := truncNow now }, rfl, rfl, ?_⟩
      simp only [updateNode, hres]
      rw [if_neg hguard]
      simp [hfr, hsle]

theorem updateNode_cases (revalidateInterval : Int)
    (resolve : ENode → Option ENode) (output : NodeSet) (n : ENode) (now : Nat) :
    (((updateNode revalidateInterval resolve output n now).1 = .nodeSkipRecent ∨
        (updateNode revalidateInterval resolve output n now).1 = .nodeSkipIncompat) ∧
       (updateNode revalidateInterval resolve output n now).2 = output) ∨
      ((updateNode revalidateInterval resolve output n now).1 = .nodeRemoved ∧
        (updateNode revalidateInterval resolve output n now).2 = nsErase output n.id) ∨
      (((updateNode revalidateInterval resolve output n now).1 = .nodeAdded ∨
          (updateNode revalidateInterval resolve output n now).1 = .nodeUpdated) ∧
        ∃ v : NodeJSON, 0 < v.score ∧
          (updateNode revalidateInterval resolve output n now).2 =
            nsInsert output n.id v) := by
  by_cases hg : ReachesResolver revalidateInterval output n now
  · cases hres : resolve n with
    | none =>
        by_cases hs : ((nsFind output n.id).getD zeroNodeJSON).score = 0
        · have e := updateNode_fail_score_zero revalidateInterval resolve output n now
            hg hres hs
          rw [e]
          exact Or.inl ⟨Or.inr rfl, rfl⟩
        · obtain ⟨r, hfind⟩ : ∃ r, nsFind output n.id = some r := by
            cases hf : nsFind output n.id with
            | none => exact absurd (by simp [hf, zeroNodeJSON]) hs
            | some r => exact ⟨r, rfl⟩
          have hsr : r.score ≠ 0 := by simpa [hfind] using hs
          have e := updateNode_fail_score_nonzero revalidateInterval resolve output n
            now r hfind hg hres hsr
          by_cases ht : Int.tdiv r.score 2 ≤ 0
          · rw [e, if_pos ht]
            exact Or.inr (Or.inl ⟨rfl, rfl⟩)
          · rw [e, if_neg ht]
            exact Or.inr (Or.inr ⟨Or.inr rfl, _, by simp; omega, rfl⟩)
    | some nn =>
        rcases updateNode_success_cases revalidateInterval resolve output n now nn hg
          hres with ⟨_, e⟩ | ⟨_, v, hv, _, e⟩
        · rw [e]
          exact Or.inr (Or.inl ⟨rfl, rfl⟩)
        · rw [e]
          refine Or.inr (Or.inr ⟨?_, v, by omega, rfl⟩)
          by_cases hfr : ((nsFind output n.id).getD zeroNodeJSON).firstResponse = 0
          · exact Or.inl (by simp [hfr])
          · exact Or.inr (by simp [hfr])
  · unfold ReachesResolver at hg
    rw [not_not] at hg
    obtain ⟨hsome, hlt⟩ := hg
    obtain ⟨r, hfind⟩ := Option.isSome_iff_exists.mp hsome
    have e := updateNode_of_recent revalidateInterval resolve output n now r hfind
      (by simpa [hfind] using hlt)
    rw [e]
    exact Or.inl ⟨Or.inl rfl, rfl⟩

theorem updateNode_preserves_invariant (revalidateInterval : Int)
    (resolve : ENode → Option ENode) (output : NodeSet) (n : ENode) (now : Nat)
    (h : ScoreInvariant output) :
    ScoreInvariant (updateNode revalidateInterval resolve output n now).2 := by
  rcases updateNode_cases revalidateInterval resolve output n now with
    ⟨_, hc⟩ | ⟨_, hc⟩ | ⟨_, v, hv, hc⟩
  · rw [hc]; exact h
  · rw [hc]
    intro p hp
    exact h p (mem_nsErase hp)
  · rw [hc]
    intro p hp
    rcases mem_nsInsert hp with hp | hp
    · rw [hp]; exact hv
    · exact h p hp

theorem applyCalls_preserves_invariant (revalidateInterval : Int) (output : NodeSet)
    (calls : List Call) (h : ScoreInvariant output) :
    ScoreInvariant (applyCalls revalidateInterval output calls) := by
  induction calls generalizing output with
  | nil => exact h
  | cons c rest ih =>
      exact ih _ (updateNode_preserves_invariant revalidateInterval c.resolve output
        c.n c.now h)

theorem updateNode_removed_absent (revalidateInterval : Int)
    (resolve : ENode → Option ENode) (output : NodeSet) (n : ENode) (now : Nat)
    (h : (updateNode revalidateInterval resolve output n now).1 = .nodeRemoved) :
    nsFind (updateNode revalidateInterval resolve output n now).2 n.id = none := by
  rcases updateNode_cases revalidateInterval resolve output n now with
    ⟨hs, _⟩ | ⟨_, hc⟩ | ⟨hs, _, _, _⟩
  · rcases hs with hs | hs <;> rw [h] at hs <;> exact absurd hs (by decide)
  · rw [hc]
    exact nsFind_nsErase_self output n.id
  · rcases hs with hs | hs <;> rw [h] at hs <;> exact absurd hs (by decide)

/-- C1 counterexample: the claim as stated fails.  `newCrawler` copies
the input set verbatim, so an input record with `Score = 0` is present
in `output`; a `SkippedRecent` call mutates nothing, leaving that
non-positive-score record in `output` after the call. -/
theorem c1_counterexample :
    ¬ ScoreInvariant
        (applyCalls 1000000000
          (newCrawlerOutput [(1, { zeroNodeJSON with seq := 9 })])
          [⟨⟨1, 0⟩, fun _ => none, 500000000⟩]) := by
  decide

/-- C1 (amended): provided every record of the input seed has
`Score > 0`, then after every sequence of `updateNode` calls starting
from `newCrawler`'s output copy, every record present in `output` has
`Score > 0`; moreover any call classified `Removed` deletes the
processed identity from `output` in that same call. -/
theorem c1_invariant_amended (revalidateInterval : Int) (input : NodeSet)
    (calls : List Call) (hinv : ScoreInvariant input) :
    ScoreInvariant (applyCalls revalidateInterval (newCrawlerOutput input) calls) ∧
      ∀ (resolve : ENode → Option ENode) (n : ENode) (now : Nat),
        (updateNode revalidateInterval resolve
            (applyCalls revalidateInterval (newCrawlerOutput input) calls) n now).1 =
          .nodeRemoved →
        nsFind (updateNode revalidateInterval resolve
            (applyCalls revalidateInterval (newCrawlerOutput input) calls) n now).2
          n.id = none := by
  constructor
  · exact applyCalls_preserves_invariant revalidateInterval input calls hinv
  · intro resolve n now h
    exact updateNode_removed_absent revalidateInterval resolve _ n now h

theorem c1_invariant_amended_witness :
    ScoreInvariant [(3, { zeroNodeJSON with score := 2 })] ∧
      (ScoreInvariant
          (applyCalls 1000000000
            (newCrawlerOutput [(3, { zeroNodeJSON with score := 2 })])
            [⟨⟨3, 0⟩, fun _ => none, 2000000000⟩]) ∧
        ∀ (resolve : ENode → Option ENode) (n : ENode) (now : Nat),
          (updateNode 1000000000 resolve
              (applyCalls 1000000000
                (newCrawlerOutput [(3, { zeroNodeJSON with score := 2 })])
                [⟨⟨3, 0⟩, fun _ => none, 2000000000⟩]) n now).1 = .nodeRemoved →
          nsFind (updateNode 1000000000 resolve
              (applyCalls 1000000000
                (newCrawlerOutput [(3, { zeroNodeJSON with score := 2 })])
                [⟨⟨3, 0⟩, fun _ => none, 2000000000⟩]) n now).2 n.id = none) :=
  ⟨by decide,
   c1_invariant_amended 1000000000 [(3, { zeroNodeJSON with score := 2 })]
     [⟨⟨3, 0⟩, fun _ => none, 2000000000⟩] (by decide)⟩

theorem tdiv_two_nonneg {a : Int} (h : 0 < a) : 0 ≤ Int.tdiv a 2 := by
  obtain ⟨m, rfl⟩ : ∃ m : Nat, a = (m : Int) :=
    ⟨a.toNat, (Int.toNat_of_nonneg (le_of_lt h)).symm⟩
  rw [show Int.tdiv (m : Int) 2 = ((m / 2 : Nat) : Int) from rfl]
  omega

theorem tdiv_two_nonpos_iff {a : Int} (h : 0 < a) : Int.tdiv a 2 ≤ 0 ↔ a = 1 := by
  obtain ⟨m, rfl⟩ : ∃ m : Nat, a = (m : Int) :=
    ⟨a.toNat, (Int.toNat_of_nonneg (le_of_lt h)).symm⟩
  rw [show Int.tdiv (m : Int) 2 = ((m / 2 : Nat) : Int) from rfl]
  omega

/-- C4 counterexample: the claim as stated fails.  A record already
present in `output` with `Score = 0` (as `newCrawler` copies it from the
input seed) whose resolution fails is classified `SkippedIncompatible`,
but the identity is NOT absent from `output` after the call: the
skip branch returns before the store/delete step, so the record stays. -/
theorem c4_counterexample :
    (updateNode 1000000000 (fun _ => none)
        [(1, { zeroNodeJSON with seq := 9 })] ⟨1, 0⟩ 2000000000).1 =
        .nodeSkipIncompat ∧
      nsFind (updateNode 1000000000 (fun _ => none)
          [(1, { zeroNodeJSON with seq := 9 })] ⟨1, 0⟩ 2000000000).2 1 =
        some { zeroNodeJSON with seq := 9 } := by
  decide

/-- C4 (amended): for every candidate that reaches the resolver, whose
resolution fails and whose looked-up record (the zero record when
absent) has `Score = 0`, `updateNode` returns `SkippedIncompatible` and
leaves the output set unchanged; in particular an identity with no
prior record is still absent afterwards — it never enters the output
set. -/
theorem c4_amended_skip_incompat (revalidateInterval : Int)
    (resolve : ENode → Option ENode) (output : NodeSet) (n : ENode) (now : Nat)
    (hguard : ReachesResolver revalidateInterval output n now)
    (hres : resolve n = none)
    (hscore : ((nsFind output n.id).getD zeroNodeJSON).score = 0) :
    updateNode revalidateInterval resolve output n now = (.nodeSkipIncompat, output) ∧
      (nsFind output n.id = none →
        nsFind (updateNode revalidateInterval resolve output n now).2 n.id = none) := by
  have e := updateNode_fail_score_zero revalidateInterval resolve output n now
    hguard hres hscore
  exact ⟨e, fun h => by rw [e]; exact h⟩

theorem c4_amended_skip_incompat_witness :
    ReachesResolver 1000000000 [] ⟨2, 0⟩ 0 ∧
      (updateNode 1000000000 (fun _ => none) [] ⟨2, 0⟩ 0 = (.nodeSkipIncompat, []) ∧
        (nsFind ([] : NodeSet) 2 = none →
          nsFind (updateNode 1000000000 (fun _ => none) [] ⟨2, 0⟩ 0).2 2 = none)) :=
  ⟨by decide,
   c4_amended_skip_incompat 1000000000 (fun _ => none) [] ⟨2, 0⟩ 0
     (by decide) rfl (by decide)⟩

/-- C5: when resolution of a present record with positive score fails,
`Score` is halved by integer division truncating toward zero
(`Int.tdiv`), the halved score is never negative, the record is removed
exactly when the halved score is non-positive (equivalently, exactly
when the old score was 1), and the concrete decay sequence starting at
`Score = 4` is `4 → 2 → 1 → removed`. -/
theorem c5_score_decay (revalidateInterval : Int)
    (resolve : ENode → Option ENode) (output : NodeSet) (n : ENode) (now : Nat)
    (r : NodeJSON)
    (hfind : nsFind output n.id = some r)
    (hpos : 0 < r.score)
    (hguard : ReachesResolver revalidateInterval output n now)
    (hres : resolve n = none) :
    (updateNode revalidateInterval resolve output n now =
        if Int.tdiv r.score 2 ≤ 0 then
          (.nodeRemoved, nsErase output n.id)
        else
          (.nodeUpdated, nsInsert output n.id
            { r with score := Int.tdiv r.score 2, lastCheck := truncNow now })) ∧
      0 ≤ Int.tdiv r.score 2 ∧
      (Int.tdiv r.score 2 ≤ 0 ↔ r.score = 1) ∧
      ((updateNode 0 (fun _ => none)
          [(1, { zeroNodeJSON with score := 4 })] ⟨1, 0⟩ 1000000000) =
        (.nodeUpdated,
          [(1, { zeroNodeJSON with score := 2, lastCheck := 1000000000 })]) ∧
       (updateNode 0 (fun _ => none)
          [(1, { zeroNodeJSON with score := 2, lastCheck := 1000000000 })] ⟨1, 0⟩
          2000000000) =
        (.nodeUpdated,
          [(1, { zeroNodeJSON with score := 1, lastCheck := 2000000000 })]) ∧
       (updateNode 0 (fun _ => none)
          [(1, { zeroNodeJSON with score := 1, lastCheck := 2000000000 })] ⟨1, 0⟩
          3000000000) =
        (.nodeRemoved, [])) := by
  refine ⟨?_, tdiv_two_nonneg hpos, tdiv_two_nonpos_iff hpos, by decide, by decide,
    by decide⟩
  exact updateNode_fail_score_nonzero revalidateInterval resolve output n now r
    hfind hguard hres (by omega)

theorem c5_score_decay_witness :
    nsFind [(1, { zeroNodeJSON with score := 4 })] 1 =
        some { zeroNodeJSON with score := 4 } ∧
      (updateNode 0 (fun _ => none) [(1, { zeroNodeJSON with score := 4 })] ⟨1, 0⟩
          1000000000 =
        if Int.tdiv ({ zeroNodeJSON with score := 4 } : NodeJSON).score 2 ≤ 0 then
          (.nodeRemoved, nsErase [(1, { zeroNodeJSON with score := 4 })] 1)
        else
          (.nodeUpdated, nsInsert [(1, { zeroNodeJSON with score := 4 })] 1
            { ({ zeroNodeJSON with score := 4 } : NodeJSON) with
                score := Int.tdiv ({ zeroNodeJSON with score := 4 } : NodeJSON).score 2,
                lastCheck := truncNow 1000000000 })) :=
  ⟨by decide,
   (c5_score_decay 0 (fun _ => none) [(1, { zeroNodeJSON with score := 4 })] ⟨1, 0⟩
     1000000000 { zeroNodeJSON with score := 4 } (by decide) (by decide) (by decide)
     rfl).1⟩

/-- C6 counterexample: the claim as stated fails.  For a call that
reaches the resolver but takes the `SkippedIncompatible` branch on a
record already present with `Score = 0`, the record observable in
`output` keeps its old `LastCheck` instead of the truncated current
time. -/
theorem c6_counterexample :
    ReachesResolver 1000000000 [(1, { zeroNodeJSON with seq := 9 })] ⟨1, 0⟩
        2500000000 ∧
      (updateNode 1000000000 (fun _ => none)
          [(1, { zeroNodeJSON with seq := 9 })] ⟨1, 0⟩ 2500000000).1 ≠
        .nodeSkipRecent ∧
      nsFind (updateNode 1000000000 (fun _ => none)
          [(1, { zeroNodeJSON with seq := 9 })] ⟨1, 0⟩ 2500000000).2 1 =
        some { zeroNodeJSON with seq := 9 } ∧
      ({ zeroNodeJSON with seq := 9 } : NodeJSON).lastCheck ≠ truncNow 2500000000 := by
  decide

/-- C6 (amended): for every `updateNode` call that reaches the resolver,
provided the pre-existing record under the candidate's identity (if
any) has `Score > 0`, any record present in `output` under that
identity after the call has `LastCheck = truncNow now` — on success and
on failure alike. -/
theorem c6_amended_lastcheck (revalidateInterval : Int)
    (resolve : ENode → Option ENode) (output : NodeSet) (n : ENode) (now : Nat)
    (hguard : ReachesResolver revalidateInterval output n now)
    (hinv : ∀ r, nsFind output n.id = some r → 0 < r.score) :
    ∀ r, nsFind (updateNode revalidateInterval resolve output n now).2 n.id = some r →
      r.lastCheck = truncNow now := by
  intro r hr
  cases hres : resolve n with
  | none =>
      cases hf : nsFind output n.id with
      | none =>
          have e := updateNode_fail_score_zero revalidateInterval resolve output n now
            hguard hres (by simp [hf, zeroNodeJSON])
          rw [e] at hr
          simp only at hr
          rw [hf] at hr
          exact absurd hr (by simp)
      | some r0 =>
          have hp := hinv r0 hf
          have e := updateNode_fail_score_nonzero revalidateInterval resolve output n
            now r0 hf hguard hres (by omega)
          rw [e] at hr
          by_cases ht : Int.tdiv r0.score 2 ≤ 0
          · rw [if_pos ht] at hr
            simp only at hr
            rw [nsFind_nsErase_self] at hr
            exact absurd hr (by simp)
          · rw [if_neg ht] at hr
            simp only at hr
            rw [nsFind_nsInsert_self] at hr
            injection hr with hr
            rw [← hr]
  | some nn =>
      rcases updateNode_success_cases revalidateInterval resolve output n now nn
        hguard hres with ⟨_, e⟩ | ⟨_, v, _, hvl, e⟩
      · rw [e] at hr
        simp only at hr
        rw [nsFind_nsErase_self] at hr
        exact absurd hr (by simp)
      · rw [e] at hr
        simp only at hr
        rw [nsFind_nsInsert_self] at hr
        injection hr with hr
        rw [← hr]
        exact hvl

theorem c6_amended_lastcheck_witness :
    ReachesResolver 1000000000 [(4, { zeroNodeJSON with score := 3 })] ⟨4, 0⟩
        2500000000 ∧
      ∀ r, nsFind (updateNode 1000000000 (fun _ => none)
          [(4, { zeroNodeJSON with score := 3 })] ⟨4, 0⟩ 2500000000).2 4 = some r →
        r.lastCheck = truncNow 2500000000 :=
  ⟨by decide,
   c6_amended_lastcheck 1000000000 (fun _ => none)
     [(4, { zeroNodeJSON with score := 3 })] ⟨4, 0⟩ 2500000000 (by decide)
     (by
       intro r h
       simp [nsFind] at h
       rw [← h]
       decide)⟩

/-- C10: when resolution of a present record with `Score ≥ 1` fails,
only `Score` (halved, truncating toward zero) and `LastCheck` (set to
the truncated current time) change: `N`, `Seq`, `FirstResponse` and
`LastResponse` are written back unchanged, and the record remains in
`output` exactly when the halved score is still positive (it is erased
with classification `Removed` otherwise). -/
theorem c10_fail_frame (revalidateInterval : Int)
    (resolve : ENode → Option ENode) (output : NodeSet) (n : ENode) (now : Nat)
    (r : NodeJSON)
    (hfind : nsFind output n.id = some r)
    (hscore : 1 ≤ r.score)
    (hguard : ReachesResolver revalidateInterval output n now)
    (hres : resolve n = none) :
    (0 < Int.tdiv r.score 2 →
        updateNode revalidateInterval resolve output n now =
          (.nodeUpdated, nsInsert output n.id
            { n := r.n, seq := r.seq, score := Int.tdiv r.score 2,
              firstResponse := r.firstResponse, lastResponse := r.lastResponse,
              lastCheck := truncNow now })) ∧
      (Int.tdiv r.score 2 ≤ 0 →
        updateNode revalidateInterval resolve output n now =
          (.nodeRemoved, nsErase output n.id) ∧
        nsFind (updateNode revalidateInterval resolve output n now).2 n.id = none) := by
  have e := updateNode_fail_score_nonzero revalidateInterval resolve output n now r
    hfind hguard hres (by omega)
  constructor
  · intro hpos
    rw [e, if_neg (by omega)]
  · intro hle
    rw [e, if_pos hle]
    exact ⟨rfl, nsFind_nsErase_self output n.id⟩

theorem c10_fail_frame_witness :
    nsFind [(6, { n := some ⟨6, 2⟩, seq := 2, score := 5, firstResponse := 1000000000,
                  lastResponse := 2000000000, lastCheck := 2000000000 })] 6 =
        some { n := some ⟨6, 2⟩, seq := 2, score := 5, firstResponse := 1000000000,
               lastResponse := 2000000000, lastCheck := 2000000000 } ∧
      (0 < Int.tdiv (5 : Int) 2 →
        updateNode 1000000000 (fun _ => none)
            [(6, { n := some ⟨6, 2⟩, seq := 2, score := 5, firstResponse := 1000000000,
                   lastResponse := 2000000000, lastCheck := 2000000000 })] ⟨6, 0⟩
            5500000000 =
          (.nodeUpdated, nsInsert
            [(6, { n := some ⟨6, 2⟩, seq := 2, score := 5, firstResponse := 1000000000,
                   lastResponse := 2000000000, lastCheck := 2000000000 })] 6
            { n := some ⟨6, 2⟩, seq := 2, score := Int.tdiv (5 : Int) 2,
              firstResponse := 1000000000, lastResponse := 2000000000,
              lastCheck := truncNow 5500000000 })) :=
  ⟨by decide,
   (c10_fail_frame 1000000000 (fun _ => none)
     [(6, { n := some ⟨6, 2⟩, seq := 2, score := 5, firstResponse := 1000000000,
            lastResponse := 2000000000, lastCheck := 2000000000 })] ⟨6, 0⟩
     5500000000
     { n := some ⟨6, 2⟩, seq := 2, score := 5, firstResponse := 1000000000,
       lastResponse := 2000000000, lastCheck := 2000000000 }
     (by decide) (by decide) (by decide) rfl).1⟩

/-- Why the loop exited (`break loop` in `run`): either the live-worker
counter reached zero, or the armed timeout channel delivered. -/
inductive ExitReason where
  | itersExhausted
  | timedOut
deriving DecidableEq

/-- The consumer-loop state of `crawler.run`.  `doneIters` records the
iterators whose completion notification has been processed (`liveIters`
in the Go code is `numIters - doneIters.length`); `armed` models
`timeoutCh` having been assigned `timeoutTimer.C`; `replayDoneAt`
records the time at which the replay (input) iterator's completion was
processed.  The five counters are the classification tallies. -/
structure LoopState where
  timeout : Int
  numIters : Nat
  inputIterIdx : Nat
  revalidateInterval : Int
  output : NodeSet
  doneIters : List Nat
  armed : Bool
  replayDoneAt : Option Nat
  added : Nat
  updated : Nat
  skipped : Nat
  recent : Nat
  removed : Nat
deriving DecidableEq

/-- One delivery to the consumer's `select`: a node from the shared
channel (with the resolver's answer for that probe), an iterator's
completion notification, the timeout channel firing, or a status tick. -/
inductive RunEvent where
  | nodeEv (n : ENode) (resolve : ENode → Option ENode)
  | doneEv (i : Nat)
  | timeoutEv
  | tickEv

/-- One iteration of the `select` loop in `crawler.run`, at wall-clock
time `t` (nanoseconds since the start of `run`).  Returns the next state
or, if the iteration breaks the loop, the exit reason and final state. -/
def stepLoop (st : LoopState) (t : Nat) :
    RunEvent → LoopState ⊕ ExitReason × LoopState
  | .nodeEv n resolve =>
      let res := updateNode st.revalidateInterval resolve st.output n t
      .inl { st with
        output := res.2,
        skipped := st.skipped + (if res.1 = .nodeSkipIncompat then 1 else 0),
        recent := st.recent + (if res.1 = .nodeSkipRecent then 1 else 0),
        removed := st.removed + (if res.1 = .nodeRemoved then 1 else 0),
        added := st.added + (if res.1 = .nodeAdded then 1 else 0),
        updated := st.updated + (if res.1 = .nodeUpdated then 1 else 0) }
  | .doneEv i =>
      -- Enable timeout when we're done revalidating the input nodes.
      let st' : LoopState := { st with
        doneIters := st.doneIters ++ [i],
        armed := if i = st.inputIterIdx ∧ 0 < st.timeout then true else st.armed,
        replayDoneAt := if i = st.inputIterIdx then some t else st.replayDoneAt }
      if st.numIters = (st.doneIters ++ [i]).length then
        .inr (.itersExhausted, st')
      else
        .inl st'
  | .timeoutEv => .inr (.timedOut, st)
  | .tickEv => .inl st

/-- Whether the environment can deliver event `e` at time `t` in state
`st`: a completion notification comes once per spawned iterator, and
the timeout channel can deliver only after it was assigned
(`timeoutCh = timeoutTimer.C`, i.e. `armed`) and the timer — started at
time `0` with duration `timeout` by `time.NewTimer` — has fired, i.e.
`timeout ≤ t`. -/
def validEvent (st : LoopState) (t : Nat) : RunEvent → Bool
  | .nodeEv _ _ => true
  | .doneEv i => decide (i < st.numIters) && decide (i ∉ st.doneIters)
  | .timeoutEv => st.armed && decide (st.timeout ≤ (t : Int))
  | .tickEv => true

/-- A timed event trace deliverable to the consumer loop from state `st`
when the previous event was processed at time `t0`: times are
nondecreasing, every event is deliverable in the state it meets, and
nothing follows the loop's exit. -/
def validTrace (st : LoopState) (t0 : Nat) : List (Nat × RunEvent) → Bool
  | [] => true
  | (t, e) :: rest =>
      decide (t0 ≤ t) && validEvent st t e &&
        (match stepLoop st t e with
         | .inl st' => validTrace st' t rest
         | .inr _ => rest.isEmpty)

/-- The consumer loop of `crawler.run` over an event trace: returns the
exit reason, the exit time and the final state, or `none` if the trace
ends before the loop exits. -/
def runLoop (st : LoopState) : List (Nat × RunEvent) → Option (ExitReason × Nat × LoopState)
  | [] => none
  | (t, e) :: rest =>
      match stepLoop st t e with
      | .inl st' => runLoop st' rest
      | .inr (r, st') => some (r, t, st')

/-- The loop state at the top of `crawler.run` for a crawler built by
`newCrawler` with `numDiscIters` discovery iterators: the replay
iterator over the input set is appended last, `output` starts as the
copy of `input`, no completion has been processed, and `timeoutCh` is
nil (not armed). -/
def initLoopState (timeout revalidateInterval : Int) (input : NodeSet)
    (numDiscIters : Nat) : LoopState :=
  { timeout := timeout, numIters := numDiscIters + 1, inputIterIdx := numDiscIters,
    revalidateInterval := revalidateInterval, output := newCrawlerOutput input,
    doneIters := [], armed := false, replayDoneAt := none,
    added := 0, updated := 0, skipped := 0, recent := 0, removed := 0 }

/-- Reachability invariant of the consumer loop: processed completion
notifications are pairwise distinct and in range, and once the timeout
channel is armed the timeout setting is positive and the replay
iterator's completion was processed at some time no later than now. -/
def StateOK (st : LoopState) (t0 : Nat) : Prop :=
  st.doneIters.Nodup ∧ (∀ i ∈ st.doneIters, i < st.numIters) ∧
    (st.armed = true → 0 < st.timeout ∧ ∃ R, st.replayDoneAt = some R ∧ R ≤ t0)

theorem StateOK.mono {st : LoopState} {t0 t1 : Nat} (h : StateOK st t0)
    (ht : t0 ≤ t1) : StateOK st t1 := by
  obtain ⟨h1, h2, h3⟩ := h
  refine ⟨h1, h2, fun ha => ?_⟩
  obtain ⟨hp, R, hR, hRle⟩ := h3 ha
  exact ⟨hp, R, hR, le_trans hRle ht⟩

theorem runLoop_ok (tr : List (Nat × RunEvent)) :
    ∀ (st : LoopState) (t0 : Nat) (r : ExitReason) (texit : Nat) (stf : LoopState),
      StateOK st t0 → validTrace st t0 tr = true →
      runLoop st tr = some (r, texit, stf) →
      StateOK stf texit ∧ stf.timeout = st.timeout ∧ stf.numIters = st.numIters ∧
        (r = .timedOut → stf.armed = true ∧ stf.timeout ≤ (texit : Int)) ∧
        (r = .itersExhausted → stf.doneIters.length = stf.numIters) := by
  induction tr with
  | nil =>
      intro st t0 r texit stf _ _ hrun
      simp [runLoop] at hrun
  | cons p rest ih =>
      obtain ⟨t, e⟩ := p
      intro st t0 r texit stf hok hv hrun
      simp only [validTrace, Bool.and_eq_true, decide_eq_true_eq] at hv
      obtain ⟨⟨ht0, hev⟩, hv⟩ := hv
      cases e with
      | nodeEv n resolve =>
          simp only [runLoop, stepLoop] at hrun
          simp only [stepLoop] at hv
          have hres := ih _ t r texit stf (by exact hok.mono ht0) hv hrun
          exact hres
      | tickEv =>
          simp only [runLoop, stepLoop] at hrun
          simp only [stepLoop] at hv
          have hres := ih _ t r texit stf (by exact hok.mono ht0) hv hrun
          exact hres
      | timeoutEv =>
          simp only [validEvent, Bool.and_eq_true, decide_eq_true_eq] at hev
          obtain ⟨harm, hle⟩ := hev
          simp only [runLoop, stepLoop, Option.some.injEq, Prod.mk.injEq] at hrun
          obtain ⟨hr, ht', hst⟩ := hrun
          subst ht'
          rw [← hst, ← hr]
          refine ⟨hok.mono ht0, rfl, rfl, fun _ => ⟨harm, hle⟩,
            fun h => absurd h (by decide)⟩
      | doneEv i =>
          simp only [validEvent, Bool.and_eq_true, decide_eq_true_eq] at hev
          obtain ⟨hlt, hmem⟩ := hev
          simp only [runLoop, stepLoop] at hrun
          simp only [stepLoop] at hv
          have hok' : StateOK
              ({ st with
                doneIters := st.doneIters ++ [i],
                armed := if i = st.inputIterIdx ∧ 0 < st.timeout then true else st.armed,
                replayDoneAt := if i = st.inputIterIdx then some t
                  else st.replayDoneAt } : LoopState) t := by
            refine ⟨?_, ?_, ?_⟩
            · show (st.doneIters ++ [i]).Nodup
              rw [List.nodup_append]
              refine ⟨hok.1, List.nodup_singleton i, ?_⟩
              intro a ha hai
              rw [List.mem_singleton] at hai
              subst hai
              exact hmem ha
            · show ∀ j ∈ st.doneIters ++ [i], j < st.numIters
              intro j hj
              rcases List.mem_append.mp hj with hj | hj
              · exact hok.2.1 j hj
              · rw [List.mem_singleton] at hj
                subst hj
                exact hlt
            · show (if i = st.inputIterIdx ∧ 0 < st.timeout then true else st.armed) = true →
                0 < st.timeout ∧
                  ∃ R, (if i = st.inputIterIdx then some t else st.replayDoneAt) = some R ∧
                    R ≤ t
              intro ha
              by_cases hc : i = st.inputIterIdx ∧ 0 < st.timeout
              · exact ⟨hc.2, t, by rw [if_pos hc.1], le_refl t⟩
              · rw [if_neg hc] at ha
                obtain ⟨hp, R, hR, hRle⟩ := hok.2.2 ha
                by_cases hi : i = st.inputIterIdx
                · exact absurd ⟨hi, hp⟩ hc
                · exact ⟨hp, R, by rw [if_neg hi]; exact hR, le_trans hRle ht0⟩
          by_cases hexit : st.numIters = (st.doneIters ++ [i]).length
          · rw [if_pos hexit] at hrun
            dsimp only at hrun
            simp only [Option.some.injEq, Prod.mk.injEq] at hrun
            obtain ⟨hr, ht', hst⟩ := hrun
            subst ht'
            rw [← hst, ← hr]
            refine ⟨hok', rfl, rfl, fun h => absurd h (by decide), fun _ => ?_⟩
            show (st.doneIters ++ [i]).length = st.numIters
            exact hexit.symm
          · rw [if_neg hexit] at hrun hv
            dsimp only at hrun hv
            have hres := ih _ t r texit stf (by exact hok') hv hrun
            exact hres

theorem initLoopState_ok (timeout revalidateInterval : Int) (input : NodeSet)
    (numDiscIters : Nat) (t0 : Nat) :
    StateOK (initLoopState timeout revalidateInterval input numDiscIters) t0 := by
  refine ⟨List.nodup_nil, ?_, ?_⟩
  · intro i hi
    simp [initLoopState] at hi
  · intro h
    simp [initLoopState] at h

/-- C7 counterexample: the claim as stated fails.  `time.NewTimer(timeout)`
starts the countdown at the beginning of `run`, not at replay
completion; completion of the replay iterator merely makes the
already-running timer's channel observable.  With `timeout = 1` and the
replay iterator's completion processed at time `5 > 1`, the (pending)
timeout fires the exit at time `5`, which is strictly less than the
`replayTime + timeout = 6` the claim requires the run to last. -/
theorem c7_counterexample :
    validTrace (initLoopState 1 1000000000 [] 1) 0
        [(5, .doneEv 1), (5, .timeoutEv)] = true ∧
      (runLoop (initLoopState 1 1000000000 [] 1)
          [(5, .doneEv 1), (5, .timeoutEv)]).map (fun x => (x.1, x.2.1)) =
        some (.timedOut, 5) ∧
      (runLoop (initLoopState 1 1000000000 [] 1)
          [(5, .doneEv 1), (5, .timeoutEv)]).map (fun x => x.2.2.replayDoneAt) =
        some (some 5) ∧
      (5 : Int) < 5 + 1 := by
  decide

/-- C7 (amended): the timer of duration `timeout` is started when `run`
begins, and its firing becomes observable only once the replay (input)
iterator's completion has been processed.  Hence whenever `run` exits
via the timeout branch, `timeout` is positive, the exit time is at
least `timeout`, and the replay iterator completed at some earlier time
`R ≤ texit` — the run can never time out before the input set has been
fully revisited, but when replay outlasts the nominal timeout the run
may halt as soon as replay completes, not a full countdown later. -/
theorem c7_timeout_gating_amended (timeout revalidateInterval : Int)
    (input : NodeSet) (numDiscIters : Nat) (tr : List (Nat × RunEvent))
    (texit : Nat) (stf : LoopState)
    (hv : validTrace (initLoopState timeout revalidateInterval input numDiscIters) 0
      tr = true)
    (hrun : runLoop (initLoopState timeout revalidateInterval input numDiscIters) tr =
      some (.timedOut, texit, stf)) :
    0 < timeout ∧ timeout ≤ (texit : Int) ∧
      ∃ R, stf.replayDoneAt = some R ∧ R ≤ texit := by
  obtain ⟨hokf, htimeout, _, htd, _⟩ :=
    runLoop_ok tr _ 0 _ texit stf
      (initLoopState_ok timeout revalidateInterval input numDiscIters 0) hv hrun
  obtain ⟨harm, hle⟩ := htd rfl
  obtain ⟨hp, R, hR, hRle⟩ := hokf.2.2 harm
  have ht' : stf.timeout = timeout := htimeout
  rw [ht'] at hp hle
  exact ⟨hp, hle, R, hR, hRle⟩

theorem c7_timeout_gating_amended_witness :
    validTrace (initLoopState 7 1000000000 [] 1) 0
        [(2, .doneEv 1), (9, .timeoutEv)] = true ∧
      (0 < (7 : Int) ∧ (7 : Int) ≤ (9 : Nat) ∧
        ∃ R, (Option.getD ((runLoop (initLoopState 7 1000000000 [] 1)
            [(2, .doneEv 1), (9, .timeoutEv)]).map (fun x => x.2.2))
            (initLoopState 7 1000000000 [] 1)).replayDoneAt = some R ∧ R ≤ 9) :=
  ⟨by decide,
   c7_timeout_gating_amended 7 1000000000 [] 1 [(2, .doneEv 1), (9, .timeoutEv)] 9
     (Option.getD ((runLoop (initLoopState 7 1000000000 [] 1)
         [(2, .doneEv 1), (9, .timeoutEv)]).map (fun x => x.2.2))
         (initLoopState 7 1000000000 [] 1))
     (by decide) (by decide)⟩

/-- C8: with `timeout ≤ 0` the timeout channel is never assigned, so the
consumer loop cannot exit via the timeout branch: every exit of `run`
is classified `itersExhausted`, occurring exactly when the live-worker
counter reaches zero, i.e. when a completion notification has been
processed for every iterator (discovery sources and the replay
iterator alike). -/
theorem c8_no_timeout_exit (timeout revalidateInterval : Int) (input : NodeSet)
    (numDiscIters : Nat) (tr : List (Nat × RunEvent)) (r : ExitReason)
    (texit : Nat) (stf : LoopState)
    (hto : timeout ≤ 0)
    (hv : validTrace (initLoopState timeout revalidateInterval input numDiscIters) 0
      tr = true)
    (hrun : runLoop (initLoopState timeout revalidateInterval input numDiscIters) tr =
      some (r, texit, stf)) :
    r = .itersExhausted ∧ stf.doneIters.length = stf.numIters := by
  obtain ⟨hokf, htimeout, _, htd, hie⟩ :=
    runLoop_ok tr _ 0 r texit stf
      (initLoopState_ok timeout revalidateInterval input numDiscIters 0) hv hrun
  cases r with
  | timedOut =>
      obtain ⟨harm, _⟩ := htd rfl
      obtain ⟨hp, _⟩ := hokf.2.2 harm
      have ht' : stf.timeout = timeout := htimeout
      rw [ht'] at hp
      omega
  | itersExhausted => exact ⟨rfl, hie rfl⟩

theorem c8_no_timeout_exit_witness :
    (0 : Int) ≤ 0 ∧
      validTrace (initLoopState 0 1000000000 [] 0) 0 [(3, .doneEv 0)] = true ∧
      ExitReason.itersExhausted = .itersExhausted ∧
      (Option.getD ((runLoop (initLoopState 0 1000000000 [] 0)
          [(3, .doneEv 0)]).map (fun x => x.2.2))
          (initLoopState 0 1000000000 [] 0)).doneIters.length =
        (Option.getD ((runLoop (initLoopState 0 1000000000 [] 0)
            [(3, .doneEv 0)]).map (fun x => x.2.2))
            (initLoopState 0 1000000000 [] 0)).numIters :=
  ⟨le_refl 0, by decide, rfl,
   (c8_no_timeout_exit 0 1000000000 [] 0 [(3, .doneEv 0)] .itersExhausted 3
     (Option.getD ((runLoop (initLoopState 0 1000000000 [] 0)
         [(3, .doneEv 0)]).map (fun x => x.2.2))
         (initLoopState 0 1000000000 [] 0))
     (le_refl 0) (by decide) (by decide)).2⟩

/-- One observable action of an iterator worker (`crawler.runIterator`):
a node delivered on the shared channel, an abort because the shutdown
broadcast (`c.closed`) was observed while blocked on send, or the
deferred completion notification (`done <- it`). -/
inductive WorkerAct where
  | sent (n : ENode)
  | abortedByClose
  | doneNotify
deriving DecidableEq

/-- `crawler.runIterator`: for each node the iterator yields (`elems`,
finite because `Next` either exhausts or is unblocked by `Close`), the
worker's `select` either delivers it to the consumer (`true` in
`outcomes`) or observes the shutdown broadcast and returns (`false`,
or `outcomes` exhausted once shutdown is under way); the deferred
`done <- it` notification is always the last action. -/
def runIterator (elems : List ENode) (outcomes : List Bool) : List WorkerAct :=
  match elems, outcomes with
  | [], _ => [.doneNotify]
  | _ :: _, [] => [.abortedByClose, .doneNotify]
  | n :: rest, true :: os => .sent n :: runIterator rest os
  | _ :: _, false :: _ => [.abortedByClose, .doneNotify]

/-- One step of the shutdown path of `crawler.run` after the loop
exits: the `close(c.closed)` broadcast, an iterator `Close`, or one
receive from the completion channel. -/
inductive ShutdownAction where
  | broadcastClosed
  | closeIter (i : Nat)
  | drainDone
deriving DecidableEq

/-- The shutdown sequence `crawler.run` executes after the loop exits:
broadcast the shutdown signal, close every iterator, then drain one
completion notification per still-live worker. -/
def shutdownActions (numIters liveIters : Nat) : List ShutdownAction :=
  .broadcastClosed :: ((List.range numIters).map ShutdownAction.closeIter ++
    List.replicate liveIters .drainDone)

theorem runIterator_ne_nil (elems : List ENode) (outcomes : List Bool) :
    runIterator elems outcomes ≠ [] := by
  match elems, outcomes with
  | [], _ => simp [runIterator]
  | _ :: _, [] => simp [runIterator]
  | n :: rest, true :: os => simp [runIterator]
  | _ :: _, false :: _ => simp [runIterator]

theorem runIterator_ends_done (elems : List ENode) (outcomes : List Bool) :
    (runIterator elems outcomes).getLast? = some .doneNotify := by
  induction elems generalizing outcomes with
  | nil => rfl
  | cons n rest ih =>
      cases outcomes with
      | nil => rfl
      | cons o os =>
          cases o
          · rfl
          · show (WorkerAct.sent n :: runIterator rest os).getLast? = some .doneNotify
            cases hrec : runIterator rest os with
            | nil => exact absurd hrec (runIterator_ne_nil rest os)
            | cons y ys =>
                rw [List.getLast?_cons_cons, ← hrec]
                exact ih os

theorem nodup_lt_length_le {l : List Nat} {N : Nat} (hnd : l.Nodup)
    (hlt : ∀ i ∈ l, i < N) : l.length ≤ N := by
  have h1 : l.toFinset.card = l.length := List.toFinset_card_of_nodup hnd
  have h2 : l.toFinset ⊆ Finset.range N := by
    intro i hi
    rw [List.mem_toFinset] at hi
    rw [Finset.mem_range]
    exact hlt i hi
  have h3 := Finset.card_le_card h2
  rw [h1, Finset.card_range] at h3
  exact h3

/-- C9: however the loop exits, the shutdown path first broadcasts the
shutdown signal, calls `Close` on every one of the `numIters`
iterators, and receives exactly one completion notification per
still-live worker, so the notifications processed in the loop plus the
drained ones account for every spawned worker; and every worker
execution finishes by emitting its completion notification as its last
action — no worker survives `run`'s return. -/
theorem c9_no_leaked_workers (timeout revalidateInterval : Int) (input : NodeSet)
    (numDiscIters : Nat) (tr : List (Nat × RunEvent)) (r : ExitReason)
    (texit : Nat) (stf : LoopState)
    (hv : validTrace (initLoopState timeout revalidateInterval input numDiscIters) 0
      tr = true)
    (hrun : runLoop (initLoopState timeout revalidateInterval input numDiscIters) tr =
      some (r, texit, stf)) :
    stf.doneIters.length + (stf.numIters - stf.doneIters.length) = stf.numIters ∧
      (shutdownActions stf.numIters (stf.numIters - stf.doneIters.length)).head? =
        some .broadcastClosed ∧
      (∀ i, i < stf.numIters → ShutdownAction.closeIter i ∈
        shutdownActions stf.numIters (stf.numIters - stf.doneIters.length)) ∧
      (shutdownActions stf.numIters
          (stf.numIters - stf.doneIters.length)).count .drainDone =
        stf.numIters - stf.doneIters.length ∧
      ∀ (elems : List ENode) (outcomes : List Bool),
        (runIterator elems outcomes).getLast? = some .doneNotify := by
  obtain ⟨hokf, _, _, _, _⟩ :=
    runLoop_ok tr _ 0 r texit stf
      (initLoopState_ok timeout revalidateInterval input numDiscIters 0) hv hrun
  have hle : stf.doneIters.length ≤ stf.numIters :=
    nodup_lt_length_le hokf.1 hokf.2.1
  refine ⟨by omega, rfl, ?_, ?_, runIterator_ends_done⟩
  · intro i hi
    rw [shutdownActions, List.mem_cons]
    refine Or.inr (List.mem_append.mpr (Or.inl ?_))
    exact List.mem_map.mpr ⟨i, List.mem_range.mpr hi, rfl⟩
  · have hmap : ((List.range stf.numIters).map ShutdownAction.closeIter).count
        ShutdownAction.drainDone = 0 := by
      rw [List.count_eq_zero]
      intro h
      obtain ⟨j, _, hj⟩ := List.mem_map.mp h
      exact absurd hj (by simp)
    simp [shutdownActions, List.count_cons, List.count_append, hmap]

theorem c9_no_leaked_workers_witness :
    validTrace (initLoopState 0 1000000000 [] 1) 0
        [(2, .doneEv 0), (4, .doneEv 1)] = true ∧
      runLoop (initLoopState 0 1000000000 [] 1) [(2, .doneEv 0), (4, .doneEv 1)] =
        some (.itersExhausted, 4,
          { timeout := 0, numIters := 2, inputIterIdx := 1,
            revalidateInterval := 1000000000, output := [], doneIters := [0, 1],
            armed := false, replayDoneAt := some 4, added := 0, updated := 0,
            skipped := 0, recent := 0, removed := 0 }) ∧
      (([0, 1] : List Nat).length + (2 - ([0, 1] : List Nat).length) = 2 ∧
        (shutdownActions 2 (2 - ([0, 1] : List Nat).length)).head? =
          some .broadcastClosed ∧
        (∀ i, i < 2 → ShutdownAction.closeIter i ∈
          shutdownActions 2 (2 - ([0, 1] : List Nat).length)) ∧
        (shutdownActions 2 (2 - ([0, 1] : List Nat).length)).count .drainDone =
          2 - ([0, 1] : List Nat).length ∧
        ∀ (elems : List ENode) (outcomes : List Bool),
          (runIterator elems outcomes).getLast? = some .doneNotify) := by
  refine ⟨by decide, by decide, ?_⟩
  exact c9_no_leaked_workers 0 1000000000 [] 1 [(2, .doneEv 0), (4, .doneEv 1)]
    .itersExhausted 4
    ⟨0, 2, 1, 1000000000, [], [0, 1], false, some 4, 0, 0, 0, 0, 0⟩
    (by decide) (by decide)
